import Mathlib

/-!
Verification development for the webpack-bundle-simple-visualizer repository.

Part 1 models the stats-normalization pipeline (`getWebpackStatsData` in
`src/index.ts` / the newer variant embedded in `src/README.md`) over a shallow
embedding of parsed JSON values.  The TypeScript code receives an `unknown`
parsed JSON document, detects its shape, selects an "effective stats" object,
and then mutates that object in place (coercing `errors`/`warnings` to arrays,
defaulting `errorsCount`/`warningsCount`, sorting `assets` descending by size,
and coercing `modules`/`chunks` to arrays).

JSON numbers are modelled as integers (asset/module sizes are byte counts;
`JSON.parse` can never produce `NaN`/`Infinity`).  JavaScript objects are
association lists of string keys; property read takes the first binding and
property write replaces the first binding (or appends), which agrees with
real JS objects, whose keys are unique.
-/

inductive Json where
  | null : Json
  | bool : Bool → Json
  | num : Int → Json
  | str : String → Json
  | arr : List Json → Json
  | obj : List (String × Json) → Json

namespace Json

/-- First binding of key `k` in an association list (JS property read). -/
def lookupF : List (String × Json) → String → Option Json
  | [], _ => none
  | (k', v) :: rest, k => if k' = k then some v else lookupF rest k

/-- JS property read `o[k]`: `some v` when the property exists, `none` for
`undefined` (absent property or non-object receiver in the shapes the code
probes with `'k' in o`). -/
def getField : Json → String → Option Json
  | .obj fs, k => lookupF fs k
  | _, _ => none

/-- Replace the first binding of `k` (or append one): JS property write. -/
def setF : List (String × Json) → String → Json → List (String × Json)
  | [], k, v => [(k, v)]
  | (k', v') :: rest, k, v =>
      if k' = k then (k, v) :: rest else (k', v') :: setF rest k v

/-- JS property write `o[k] = v`; a no-op on non-objects (the code only
assigns to values it has already confirmed to be objects). -/
def setField : Json → String → Json → Json
  | .obj fs, k, v => .obj (setF fs k v)
  | j, _, _ => j

/-- `typeof j === 'object' && j !== null` — true for JSON objects AND arrays. -/
def isObjectLike : Json → Bool
  | .obj _ => true
  | .arr _ => true
  | _ => false

/-- `j` is a JSON object proper (`{...}`). -/
def isObj : Json → Bool
  | .obj _ => true
  | _ => false

/-- `'k' in j && Array.isArray(j.k)`. -/
def isArrayField (j : Json) (k : String) : Bool :=
  match j.getField k with
  | some (.arr _) => true
  | _ => false

/-- `'k' in j && Array.isArray(j.k) && j.k.length > 0`, returning the array. -/
def getNonEmptyArr (j : Json) (k : String) : Option (List Json) :=
  match j.getField k with
  | some (.arr l) => if l.isEmpty then none else some l
  | _ => none

end Json

/-- The typed failure kinds of `getWebpackStatsData` (one per distinct
`throw new Error(...)` message in the source's parse/validate block). -/
inductive NormError where
  /-- "Stats JSON is not an object." -/
  | notAnObject : NormError
  /-- "Unrecognized stats JSON structure: Missing 'assets' array …". -/
  | unrecognizedShape : NormError
  /-- "Multi-compiler stats detected, but no valid child compilation found
  and top-level lacks 'assets'." -/
  | multiNoValidChild : NormError
  /-- "Invalid stats format: 'assets' array not found in effective stats
  object." -/
  | missingAssetsArray : NormError
deriving DecidableEq

/-- The structure errors (every failure other than `notAnObject`). -/
def NormError.isStructureError : NormError → Bool
  | .notAnObject => false
  | _ => true

/-- Which part of the raw document was selected as the effective stats. -/
inductive Selection where
  | topLevel : Selection
  | child : Nat → Selection
deriving DecidableEq

/-- A multi-compiler child qualifies when it is object-shaped
(`typeof child === 'object' && child !== null`) and `'assets' in child &&
Array.isArray(child.assets)`.  (A JSON array passes the `typeof` test but has
no `assets` property, so it never qualifies.) -/
def childValid (c : Json) : Bool :=
  c.isObjectLike && c.isArrayField "assets"

/-- Index of the first element satisfying `p` (`Array.prototype.find`,
tracked by position so that the selected child can be named inside the
document). -/
def findFirstIdx (p : α → Bool) : List α → Option Nat
  | [] => none
  | a :: l => if p a then some 0 else (findFirstIdx p l).map (· + 1)

/-- Shape detection of `getWebpackStatsData`, mirrored from the source:
1. not object-like (`typeof !== 'object' || === null`) → "not an object";
2. `modules` a non-empty array → the input itself;
3. else `children` a non-empty array → the first valid child, else the
   top level when it has an `assets` array (with a console warning), else a
   structure error;
4. else an `assets` array at top level → the input itself;
5. else a structure error. -/
def selectEffective (raw : Json) : Except NormError Selection :=
  if raw.isObjectLike = false then .error .notAnObject
  else if (raw.getNonEmptyArr "modules").isSome then .ok .topLevel
  else
    match raw.getNonEmptyArr "children" with
    | some cs =>
      match findFirstIdx childValid cs with
      | some i => .ok (.child i)
      | none =>
        if raw.isArrayField "assets" then .ok .topLevel
        else .error .multiNoValidChild
    | none =>
      if raw.isArrayField "assets" then .ok .topLevel
      else .error .unrecognizedShape

/-- `(asset.size ?? 0)` used by the assets comparator: the `size` property
when it is a number, else 0 (missing/null). -/
def sizeD (j : Json) : Int :=
  match j.getField "size" with
  | some (.num n) => n
  | _ => 0

/-- The ordering induced by the comparator
`(a, b) => (b.size ?? 0) - (a.size ?? 0)`: `a` may come before `b`
exactly when `sizeD b ≤ sizeD a` (descending by size). -/
def rAsset (a b : Json) : Prop := sizeD b ≤ sizeD a

instance : DecidableRel rAsset := fun a b =>
  inferInstanceAs (Decidable (sizeD b ≤ sizeD a))

instance : IsTotal Json rAsset :=
  ⟨fun a b => (Int.le_total (sizeD b) (sizeD a)).imp id id⟩

instance : IsTrans Json rAsset :=
  ⟨fun _ _ _ hab hbc => le_trans hbc hab⟩

/-- `effectiveStats.assets.sort((a, b) => (b.size ?? 0) - (a.size ?? 0))`.
`Array.prototype.sort` is stable (ES2019) and, for a consistent comparator,
its result is the unique stable permutation ordered by the comparator, which
is exactly stable insertion sort with relation `rAsset`. -/
def sortAssets (l : List Json) : List Json :=
  l.insertionSort rAsset

/-- `effectiveStats.k = Array.isArray(effectiveStats.k) ?
effectiveStats.k : []` — coerce a field to an array (empty when missing or
not an array). -/
def coerceArrField (e : Json) (k : String) : Json :=
  match e.getField k with
  | some (.arr l) => e.setField k (.arr l)
  | _ => e.setField k (.arr [])

/-- `.length` of an array-valued property (the code only reads it after
coercing the property to an array). -/
def jsLen : Option Json → Int
  | some (.arr l) => l.length
  | _ => 0

/-- `effectiveStats.ck = effectiveStats.ck ?? effectiveStats.ak.length` —
default a count field from the length of the (already coerced) array field.
`??` substitutes only for `null`/absent; any other value is kept as given. -/
def defaultCount (e : Json) (ck ak : String) : Json :=
  match e.getField ck with
  | some .null => e.setField ck (.num (jsLen (e.getField ak)))
  | none => e.setField ck (.num (jsLen (e.getField ak)))
  | some v => e.setField ck v

/-- The in-place `effectiveStats.assets.sort(...)` (a no-op when `assets`
is not an array, which the preceding validation has already excluded). -/
def sortAssetsField (e : Json) : Json :=
  match e.getField "assets" with
  | some (.arr l) => e.setField "assets" (.arr (sortAssets l))
  | _ => e

/-- The validation and in-place normalization applied to the selected
effective stats object, in source order: check `assets` is an array, coerce
`errors`/`warnings`, default the counts, sort `assets` descending by size,
coerce `modules`/`chunks`. -/
def postProcess (e0 : Json) : Except NormError Json :=
  if e0.isArrayField "assets" = false then .error .missingAssetsArray
  else .ok (coerceArrField (coerceArrField (sortAssetsField
    (defaultCount (defaultCount
      (coerceArrField (coerceArrField e0 "errors") "warnings")
      "errorsCount" "errors") "warningsCount" "warnings")) "modules")
    "chunks")

/-- The sub-document a `Selection` denotes inside a document. -/
def getSelected (doc : Json) : Selection → Option Json
  | .topLevel => some doc
  | .child i =>
    match doc.getField "children" with
    | some (.arr cs) => cs.get? i
    | _ => none

/-- Write the (mutated) effective object back into the raw document: the
in-place mutations of `effectiveStats` are visible through the caller's
parsed document, either at top level or at the selected child. -/
def setSelected (raw : Json) : Selection → Json → Json
  | .topLevel, e => e
  | .child i, e =>
    match raw.getField "children" with
    | some (.arr cs) => raw.setField "children" (.arr (cs.set i e))
    | _ => raw

/-- `getWebpackStatsData`, with the file I/O stripped: shape detection,
selection of the effective stats object, and its in-place normalization.
Returns the caller's document as updated by the in-place writes together
with the effective stats object (which the source returns as `statsData`). -/
def getWebpackStatsDataFull (raw : Json) : Except NormError (Json × Json) :=
  match selectEffective raw with
  | .error e => .error e
  | .ok sel =>
    match postProcess ((getSelected raw sel).getD .null) with
    | .error e => .error e
    | .ok r => .ok (setSelected raw sel r, r)

/-- The returned `statsData` of `getWebpackStatsData`. -/
def getWebpackStatsData (raw : Json) : Except NormError Json :=
  match getWebpackStatsDataFull raw with
  | .error e => .error e
  | .ok (_, r) => .ok r

/-- Value of an array-valued property after the coercion
`Array.isArray(x) ? x : []`. -/
def arrOr : Option Json → List Json
  | some (.arr l) => l
  | _ => []

/-- Value of a count property after `x ?? len`: the length when the property
is absent or `null`, the stored value otherwise (kept as given). -/
def countOr : Option Json → Int → Json
  | some .null, n => .num n
  | none, n => .num n
  | some v, _ => v

namespace Json

theorem lookupF_setF_self (fs : List (String × Json)) (k : String) (v : Json) :
    lookupF (setF fs k v) k = some v := by
  induction fs with
  | nil => simp [setF, lookupF]
  | cons p rest ih =>
    by_cases h : p.1 = k
    · simp [setF, h, lookupF]
    · simp [setF, h, lookupF, ih]

theorem lookupF_setF_ne (fs : List (String × Json)) (k : String) (v : Json)
    (k' : String) (h : k' ≠ k) :
    lookupF (setF fs k v) k' = lookupF fs k' := by
  induction fs with
  | nil => simp [setF, lookupF, Ne.symm h]
  | cons p rest ih =>
    by_cases hp : p.1 = k
    · have hp' : ¬ (k = k') := fun hc => h hc.symm
      simp [setF, hp, lookupF, hp']
    · simp [setF, hp, lookupF, ih]

theorem setF_lookup_self (fs : List (String × Json)) (k : String) (v : Json)
    (h : lookupF fs k = some v) : setF fs k v = fs := by
  induction fs with
  | nil => simp [lookupF] at h
  | cons p rest ih =>
    by_cases hp : p.1 = k
    · cases p with
      | mk k1 v1 =>
        simp only at hp
        subst hp
        simp [lookupF] at h
        simp [setF, h]
    · simp [lookupF, hp] at h
      simp [setF, hp, ih h]

theorem isObj_setField (j : Json) (k : String) (v : Json) :
    (j.setField k v).isObj = j.isObj := by
  cases j <;> rfl

theorem isObjectLike_of_isObj (j : Json) (h : j.isObj = true) :
    j.isObjectLike = true := by
  cases j <;> simp_all [isObj, isObjectLike]

theorem isObj_of_getField {j : Json} {k : String} {v : Json}
    (h : j.getField k = some v) : j.isObj = true := by
  cases j <;> simp_all [getField, isObj]

theorem getField_setField_self (j : Json) (k : String) (v : Json)
    (h : j.isObj = true) : (j.setField k v).getField k = some v := by
  cases j <;> simp_all [isObj, setField, getField, lookupF_setF_self]

theorem getField_setField_ne (j : Json) (k : String) (v : Json) (k' : String)
    (h : k' ≠ k) : (j.setField k v).getField k' = j.getField k' := by
  cases j <;> simp [setField, getField, lookupF_setF_ne _ _ _ _ h]

theorem setField_eq_self (j : Json) (k : String) (v : Json)
    (h : j.getField k = some v) : j.setField k v = j := by
  cases j <;> simp_all [getField, setField, setF_lookup_self]

end Json

theorem isObj_coerceArrField (e : Json) (k : String) :
    (coerceArrField e k).isObj = e.isObj := by
  unfold coerceArrField
  cases he : e.getField k with
  | none => simp [Json.isObj_setField]
  | some v => cases v <;> simp [Json.isObj_setField]

theorem getField_coerceArrField_self (e : Json) (k : String)
    (h : e.isObj = true) :
    (coerceArrField e k).getField k = some (.arr (arrOr (e.getField k))) := by
  unfold coerceArrField
  cases he : e.getField k with
  | none => simp [arrOr, Json.getField_setField_self _ _ _ h]
  | some v => cases v <;> simp [arrOr, Json.getField_setField_self _ _ _ h]

theorem getField_coerceArrField_ne (e : Json) (k k' : String) (h : k' ≠ k) :
    (coerceArrField e k).getField k' = e.getField k' := by
  unfold coerceArrField
  cases he : e.getField k with
  | none => simp [Json.getField_setField_ne _ _ _ _ h]
  | some v => cases v <;> simp [Json.getField_setField_ne _ _ _ _ h]

theorem coerceArrField_eq_self (e : Json) (k : String) (l : List Json)
    (h : e.getField k = some (.arr l)) : coerceArrField e k = e := by
  unfold coerceArrField
  rw [h]
  exact Json.setField_eq_self _ _ _ h

theorem isObj_defaultCount (e : Json) (ck ak : String) :
    (defaultCount e ck ak).isObj = e.isObj := by
  unfold defaultCount
  cases he : e.getField ck with
  | none => simp [Json.isObj_setField]
  | some v => cases v <;> simp [Json.isObj_setField]

theorem getField_defaultCount_self (e : Json) (ck ak : String)
    (h : e.isObj = true) :
    (defaultCount e ck ak).getField ck =
      some (countOr (e.getField ck) (jsLen (e.getField ak))) := by
  unfold defaultCount
  cases he : e.getField ck with
  | none => simp [countOr, Json.getField_setField_self _ _ _ h]
  | some v => cases v <;> simp [countOr, Json.getField_setField_self _ _ _ h]

theorem getField_defaultCount_ne (e : Json) (ck ak k' : String)
    (h : k' ≠ ck) :
    (defaultCount e ck ak).getField k' = e.getField k' := by
  unfold defaultCount
  cases he : e.getField ck with
  | none => simp [Json.getField_setField_ne _ _ _ _ h]
  | some v => cases v <;> simp [Json.getField_setField_ne _ _ _ _ h]

theorem defaultCount_eq_self (e : Json) (ck ak : String) (v : Json)
    (h : e.getField ck = some v) (hv : v ≠ .null) :
    defaultCount e ck ak = e := by
  unfold defaultCount
  rw [h]
  cases v <;> first
    | exact absurd rfl hv
    | exact Json.setField_eq_self _ _ _ h

theorem countOr_ne_null (o : Option Json) (n : Int) :
    countOr o n ≠ Json.null := by
  cases o with
  | none => simp [countOr]
  | some v => cases v <;> simp [countOr]

theorem jsLen_eq_length_arrOr (o : Option Json) :
    jsLen o = (arrOr o).length := by
  cases o with
  | none => simp [jsLen, arrOr]
  | some v => cases v <;> simp [jsLen, arrOr]

theorem sortAssets_idem (l : List Json) :
    sortAssets (sortAssets l) = sortAssets l :=
  (List.sorted_insertionSort rAsset l).insertionSort_eq

theorem isObj_sortAssetsField (e : Json) :
    (sortAssetsField e).isObj = e.isObj := by
  unfold sortAssetsField
  cases he : e.getField "assets" with
  | none => simp
  | some v => cases v <;> simp [Json.isObj_setField]

theorem getField_sortAssetsField_self (e : Json) (l : List Json)
    (h : e.getField "assets" = some (.arr l)) :
    (sortAssetsField e).getField "assets" = some (.arr (sortAssets l)) := by
  unfold sortAssetsField
  rw [h]
  exact Json.getField_setField_self _ _ _ (Json.isObj_of_getField h)

theorem getField_sortAssetsField_ne (e : Json) (k' : String)
    (h : k' ≠ "assets") :
    (sortAssetsField e).getField k' = e.getField k' := by
  unfold sortAssetsField
  cases he : e.getField "assets" with
  | none => simp
  | some v => cases v <;> simp [Json.getField_setField_ne _ _ _ _ h]

theorem sortAssetsField_eq_self (e : Json) (l : List Json)
    (h : e.getField "assets" = some (.arr l)) (hs : sortAssets l = l) :
    sortAssetsField e = e := by
  unfold sortAssetsField
  rw [h]
  show e.setField "assets" (Json.arr (sortAssets l)) = e
  rw [hs]
  exact Json.setField_eq_self _ _ _ h

/-- Full characterization of a successful `postProcess` run: every report
field is determined from the selected document's fields, and every other
property is left untouched. -/
theorem postProcess_ok (e : Json) (l : List Json)
    (h : e.getField "assets" = some (.arr l)) :
    ∃ r, postProcess e = .ok r
      ∧ r.isObj = true
      ∧ r.getField "assets" = some (.arr (sortAssets l))
      ∧ r.getField "errors" = some (.arr (arrOr (e.getField "errors")))
      ∧ r.getField "warnings" = some (.arr (arrOr (e.getField "warnings")))
      ∧ r.getField "errorsCount" =
          some (countOr (e.getField "errorsCount")
            ((arrOr (e.getField "errors")).length))
      ∧ r.getField "warningsCount" =
          some (countOr (e.getField "warningsCount")
            ((arrOr (e.getField "warnings")).length))
      ∧ r.getField "modules" = some (.arr (arrOr (e.getField "modules")))
      ∧ r.getField "chunks" = some (.arr (arrOr (e.getField "chunks")))
      ∧ (∀ k, k ≠ "assets" → k ≠ "errors" → k ≠ "warnings" →
          k ≠ "errorsCount" → k ≠ "warningsCount" → k ≠ "modules" →
          k ≠ "chunks" → r.getField k = e.getField k) := by
  have hobj : e.isObj = true := Json.isObj_of_getField h
  have harr : e.isArrayField "assets" = true := by
    unfold Json.isArrayField
    rw [h]
  have ho1 : (coerceArrField e "errors").isObj = true := by
    rw [isObj_coerceArrField, hobj]
  have ho2 : (coerceArrField (coerceArrField e "errors") "warnings").isObj
      = true := by
    rw [isObj_coerceArrField, ho1]
  have ho3 : (defaultCount (coerceArrField (coerceArrField e "errors")
      "warnings") "errorsCount" "errors").isObj = true := by
    rw [isObj_defaultCount, ho2]
  have ho4 : (defaultCount (defaultCount (coerceArrField (coerceArrField e
      "errors") "warnings") "errorsCount" "errors") "warningsCount"
      "warnings").isObj = true := by
    rw [isObj_defaultCount, ho3]
  have ho5 : (sortAssetsField (defaultCount (defaultCount (coerceArrField
      (coerceArrField e "errors") "warnings") "errorsCount" "errors")
      "warningsCount" "warnings")).isObj = true := by
    rw [isObj_sortAssetsField, ho4]
  have ho6 : (coerceArrField (sortAssetsField (defaultCount (defaultCount
      (coerceArrField (coerceArrField e "errors") "warnings") "errorsCount"
      "errors") "warningsCount" "warnings")) "modules").isObj = true := by
    rw [isObj_coerceArrField, ho5]
  refine ⟨_, by unfold postProcess; rw [if_neg (by simp [harr])], ?_, ?_,
    ?_, ?_, ?_, ?_, ?_, ?_, ?_⟩
  · rw [isObj_coerceArrField, ho6]
  · rw [getField_coerceArrField_ne _ _ _ (by decide),
      getField_coerceArrField_ne _ _ _ (by decide),
      getField_sortAssetsField_self _ l]
    rw [getField_defaultCount_ne _ _ _ _ (by decide),
      getField_defaultCount_ne _ _ _ _ (by decide),
      getField_coerceArrField_ne _ _ _ (by decide),
      getField_coerceArrField_ne _ _ _ (by decide), h]
  · rw [getField_coerceArrField_ne _ _ _ (by decide),
      getField_coerceArrField_ne _ _ _ (by decide),
      getField_sortAssetsField_ne _ _ (by decide),
      getField_defaultCount_ne _ _ _ _ (by decide),
      getField_defaultCount_ne _ _ _ _ (by decide),
      getField_coerceArrField_ne _ _ _ (by decide),
      getField_coerceArrField_self _ _ hobj]
  · rw [getField_coerceArrField_ne _ _ _ (by decide),
      getField_coerceArrField_ne _ _ _ (by decide),
      getField_sortAssetsField_ne _ _ (by decide),
      getField_defaultCount_ne _ _ _ _ (by decide),
      getField_defaultCount_ne _ _ _ _ (by decide),
      getField_coerceArrField_self _ _ ho1,
      getField_coerceArrField_ne _ _ _ (by decide)]
  · rw [getField_coerceArrField_ne _ _ _ (by decide),
      getField_coerceArrField_ne _ _ _ (by decide),
      getField_sortAssetsField_ne _ _ (by decide),
      getField_defaultCount_ne _ _ _ _ (by decide),
      getField_defaultCount_self _ _ _ ho2,
      getField_coerceArrField_ne _ _ _ (by decide),
      getField_coerceArrField_ne _ _ _ (by decide),
      getField_coerceArrField_ne _ _ _ (by decide),
      getField_coerceArrField_self _ _ hobj, jsLen_eq_length_arrOr]
    simp [arrOr]
  · rw [getField_coerceArrField_ne _ _ _ (by decide),
      getField_coerceArrField_ne _ _ _ (by decide),
      getField_sortAssetsField_ne _ _ (by decide),
      getField_defaultCount_self _ _ _ ho3,
      getField_defaultCount_ne _ _ _ _ (by decide),
      getField_defaultCount_ne _ _ _ _ (by decide),
      getField_coerceArrField_ne _ _ _ (by decide),
      getField_coerceArrField_ne _ _ _ (by decide),
      getField_coerceArrField_self _ _ ho1,
      getField_coerceArrField_ne _ _ _ (by decide),
      jsLen_eq_length_arrOr]
    simp [arrOr]
  · rw [getField_coerceArrField_ne _ _ _ (by decide),
      getField_coerceArrField_self _ _ ho5,
      getField_sortAssetsField_ne _ _ (by decide),
      getField_defaultCount_ne _ _ _ _ (by decide),
      getField_defaultCount_ne _ _ _ _ (by decide),
      getField_coerceArrField_ne _ _ _ (by decide),
      getField_coerceArrField_ne _ _ _ (by decide)]
  · rw [getField_coerceArrField_self _ _ ho6,
      getField_coerceArrField_ne _ _ _ (by decide),
      getField_sortAssetsField_ne _ _ (by decide),
      getField_defaultCount_ne _ _ _ _ (by decide),
      getField_defaultCount_ne _ _ _ _ (by decide),
      getField_coerceArrField_ne _ _ _ (by decide),
      getField_coerceArrField_ne _ _ _ (by decide)]
  · intro k hk1 hk2 hk3 hk4 hk5 hk6 hk7
    rw [getField_coerceArrField_ne _ _ _ hk7,
      getField_coerceArrField_ne _ _ _ hk6,
      getField_sortAssetsField_ne _ _ hk1,
      getField_defaultCount_ne _ _ _ _ hk5,
      getField_defaultCount_ne _ _ _ _ hk4,
      getField_coerceArrField_ne _ _ _ hk3,
      getField_coerceArrField_ne _ _ _ hk2]

theorem findFirstIdx_some (p : α → Bool) :
    ∀ (l : List α) (i : Nat), findFirstIdx p l = some i →
      ∃ c, l.get? i = some c ∧ p c = true ∧
        ∀ j, j < i → ∀ c', l.get? j = some c' → p c' = false := by
  intro l
  induction l with
  | nil => intro i h; simp [findFirstIdx] at h
  | cons a t ih =>
    intro i h
    unfold findFirstIdx at h
    by_cases hp : p a = true
    · rw [if_pos hp] at h
      cases h
      exact ⟨a, rfl, hp, fun j hj _ _ => absurd hj (Nat.not_lt_zero j)⟩
    · rw [if_neg hp] at h
      cases hft : findFirstIdx p t with
      | none => rw [hft] at h; simp at h
      | some i0 =>
        rw [hft] at h
        have h2 : i0 + 1 = i := by simpa using h
        obtain ⟨c, hc, hpc, hmin⟩ := ih i0 hft
        subst h2
        refine ⟨c, hc, hpc, ?_⟩
        intro j hj c' hc'
        match j with
        | 0 =>
          simp only [List.get?] at hc'
          cases hc'
          simp only [Bool.not_eq_true] at hp
          exact hp
        | j' + 1 =>
          exact hmin j' (Nat.lt_of_succ_lt_succ hj) c' hc'

theorem getNonEmptyArr_some {j : Json} {k : String} {l : List Json}
    (h : j.getNonEmptyArr k = some l) :
    j.getField k = some (.arr l) ∧ l.isEmpty = false := by
  unfold Json.getNonEmptyArr at h
  cases hg : j.getField k with
  | none => rw [hg] at h; simp at h
  | some v =>
    rw [hg] at h
    cases v with
    | arr l0 =>
      dsimp only at h
      by_cases he : l0.isEmpty = true
      · rw [if_pos he] at h; simp at h
      · rw [if_neg he] at h
        injection h with h'
        subst h'
        exact ⟨rfl, by simpa using he⟩
    | null => simp at h
    | bool b => simp at h
    | num n => simp at h
    | str s => simp at h
    | obj fs => simp at h

theorem selectEffective_error_propagates (raw : Json) (er : NormError)
    (h : selectEffective raw = .error er) :
    getWebpackStatsData raw = .error er := by
  unfold getWebpackStatsData getWebpackStatsDataFull
  rw [h]

theorem isArrayField_true {j : Json} {k : String}
    (h : j.isArrayField k = true) : ∃ l, j.getField k = some (.arr l) := by
  unfold Json.isArrayField at h
  cases hg : j.getField k with
  | none => rw [hg] at h; cases h
  | some v => cases v <;> rw [hg] at h <;> first
      | exact ⟨_, rfl⟩
      | cases h

theorem postProcess_ok_inv {e r : Json} (h : postProcess e = .ok r) :
    ∃ l, e.getField "assets" = some (.arr l) := by
  unfold postProcess at h
  by_cases ha : e.isArrayField "assets" = false
  · rw [if_pos ha] at h; cases h
  · exact isArrayField_true (by simpa using ha)

theorem lt_length_of_get?_some {l : List α} {i : Nat} {a : α}
    (h : l.get? i = some a) : i < l.length := by
  by_contra hlt
  rw [List.get?_eq_none.mpr (Nat.le_of_not_lt hlt)] at h
  cases h

/-- Inversion: a `child i` selection can only come from the multi-compiler
branch, with `i` the first valid child's index. -/
theorem selectEffective_child_inv (raw : Json) (i : Nat)
    (h : selectEffective raw = .ok (.child i)) :
    ∃ cs, raw.getNonEmptyArr "children" = some cs ∧
      findFirstIdx childValid cs = some i := by
  unfold selectEffective at h
  by_cases ho : raw.isObjectLike = false
  · rw [if_pos ho] at h; cases h
  · rw [if_neg ho] at h
    by_cases hm : (raw.getNonEmptyArr "modules").isSome = true
    · rw [if_pos hm] at h; cases h
    · rw [if_neg hm] at h
      cases hc : raw.getNonEmptyArr "children" with
      | some cs =>
        rw [hc] at h
        dsimp only at h
        cases hfi : findFirstIdx childValid cs with
        | some i0 =>
          rw [hfi] at h
          injection h with h2
          injection h2 with h3
          exact ⟨cs, rfl, h3 ▸ hfi⟩
        | none =>
          rw [hfi] at h
          by_cases ha : raw.isArrayField "assets" = true
          · simp only [ha, if_true] at h; cases h
          · rw [if_neg (by simp [ha])] at h
            cases h
      | none =>
        rw [hc] at h
        dsimp only at h
        by_cases ha : raw.isArrayField "assets" = true
        · simp only [ha, if_true] at h; cases h
        · rw [if_neg (by simpa using ha)] at h
          cases h

/-- C6: for every valid single-build document with an `assets` array (a
document that is not routed to a child: its `modules` is a non-empty array
or its `children` is not a non-empty array), the normalized Report's
`assets` has the same length as the input array, is ordered non-increasing
by `size` (a missing size is ordered as 0), and is a permutation of the
input elements — so the stored `size` field of each asset is not modified
by the sort. -/
theorem c6_assets_length_sorted (raw : Json) (l : List Json)
    (ha : raw.getField "assets" = some (.arr l))
    (hsb : (raw.getNonEmptyArr "modules").isSome = true ∨
      raw.getNonEmptyArr "children" = none) :
    ∃ r l2, getWebpackStatsData raw = .ok r
      ∧ r.getField "assets" = some (.arr l2)
      ∧ l2.length = l.length
      ∧ l2.Pairwise rAsset
      ∧ l2.Perm l := by
  have hobj : raw.isObj = true := Json.isObj_of_getField ha
  have hol : raw.isObjectLike = true := Json.isObjectLike_of_isObj _ hobj
  have harr : raw.isArrayField "assets" = true := by
    unfold Json.isArrayField
    rw [ha]
  have hsel : selectEffective raw = .ok .topLevel := by
    rcases hsb with hm | hc
    · obtain ⟨ms, hms⟩ := Option.isSome_iff_exists.mp hm
      simp [selectEffective, hol, hms]
    · by_cases hm : (raw.getNonEmptyArr "modules").isSome = true
      · obtain ⟨ms, hms⟩ := Option.isSome_iff_exists.mp hm
        simp [selectEffective, hol, hms]
      · simp only [selectEffective, hol, Bool.true_eq_false, if_false,
          if_neg hm, hc]
        rw [if_pos harr]
  obtain ⟨r, hpp, _, hassets, _⟩ := postProcess_ok raw l ha
  refine ⟨r, sortAssets l, ?_, hassets, ?_, ?_, ?_⟩
  · unfold getWebpackStatsData getWebpackStatsDataFull
    rw [hsel]
    dsimp only [getSelected, Option.getD]
    rw [hpp]
  · exact List.length_insertionSort _ _
  · exact List.sorted_insertionSort rAsset l
  · exact List.perm_insertionSort rAsset l

/-- Witness for C6: a two-asset single-build document with sizes 1 and 2 is
normalized to a report whose assets are sorted descending. -/
theorem c6_assets_length_sorted_witness :
    ∃ r l2,
      getWebpackStatsData (Json.obj [("assets", .arr
        [.obj [("name", .str "a"), ("size", .num 1)],
         .obj [("name", .str "b"), ("size", .num 2)]])]) = .ok r
      ∧ r.getField "assets" = some (.arr l2)
      ∧ l2.length =
          ([Json.obj [("name", .str "a"), ("size", .num 1)],
            Json.obj [("name", .str "b"), ("size", .num 2)]]).length
      ∧ l2.Pairwise rAsset
      ∧ l2.Perm [Json.obj [("name", .str "a"), ("size", .num 1)],
          Json.obj [("name", .str "b"), ("size", .num 2)]] :=
  c6_assets_length_sorted _ _ rfl (Or.inr rfl)

/-- C7 (amended): after successful normalization, `errors` and `warnings`
are always arrays (coerced to empty when missing or not arrays), and
`errorsCount`/`warningsCount` equal the corresponding array's length
whenever the source document's count field was absent or `null`; any other
provided count value — even one that is not a number — is kept exactly as
given.  In particular, for a document with `errors` (and its count) omitted
entirely, `errorsCount` equals 0 and `errors` is the empty array. -/
theorem c7_errors_warnings_defaults (e r : Json)
    (h : postProcess e = .ok r) :
    r.getField "errors" = some (.arr (arrOr (e.getField "errors")))
  ∧ r.getField "warnings" = some (.arr (arrOr (e.getField "warnings")))
  ∧ ((e.getField "errorsCount" = none ∨
        e.getField "errorsCount" = some .null) →
      r.getField "errorsCount" =
        some (.num (arrOr (e.getField "errors")).length))
  ∧ (∀ v, e.getField "errorsCount" = some v → v ≠ .null →
      r.getField "errorsCount" = some v)
  ∧ ((e.getField "warningsCount" = none ∨
        e.getField "warningsCount" = some .null) →
      r.getField "warningsCount" =
        some (.num (arrOr (e.getField "warnings")).length))
  ∧ (∀ v, e.getField "warningsCount" = some v → v ≠ .null →
      r.getField "warningsCount" = some v)
  ∧ (e.getField "errors" = none → e.getField "errorsCount" = none →
      r.getField "errors" = some (.arr []) ∧
      r.getField "errorsCount" = some (.num 0)) := by
  obtain ⟨l, hl⟩ := postProcess_ok_inv h
  obtain ⟨r0, hpp, _, _, herr, hwarn, hec, hwc, _⟩ := postProcess_ok e l hl
  have hr : r0 = r := by
    rw [h] at hpp
    injection hpp with h2
    exact h2.symm
  subst hr
  refine ⟨herr, hwarn, ?_, ?_, ?_, ?_, ?_⟩
  · intro hv
    rw [hec]
    rcases hv with hv | hv <;> rw [hv] <;> rfl
  · intro v hv hnv
    rw [hec, hv]
    cases v <;> first
      | exact absurd rfl hnv
      | rfl
  · intro hv
    rw [hwc]
    rcases hv with hv | hv <;> rw [hv] <;> rfl
  · intro v hv hnv
    rw [hwc, hv]
    cases v <;> first
      | exact absurd rfl hnv
      | rfl
  · intro he hc
    constructor
    · rw [herr, he]
      rfl
    · rw [hec, hc, he]
      rfl

/-- Witness for C7 at the document `{"assets": []}`: `errors` defaults to
the empty array and `errorsCount` to 0. -/
theorem c7_errors_warnings_defaults_witness :
    (Json.obj [("assets", .arr []), ("errors", .arr []),
        ("warnings", .arr []), ("errorsCount", .num 0),
        ("warningsCount", .num 0), ("modules", .arr []),
        ("chunks", .arr [])]).getField "errors" = some (.arr [])
  ∧ (Json.obj [("assets", .arr []), ("errors", .arr []),
        ("warnings", .arr []), ("errorsCount", .num 0),
        ("warningsCount", .num 0), ("modules", .arr []),
        ("chunks", .arr [])]).getField "errorsCount" = some (.num 0) :=
  (c7_errors_warnings_defaults (Json.obj [("assets", .arr [])]) _ rfl).2.2.2.2.2.2
    rfl rfl

/-- C7 counterexample: a document that provides `errorsCount` as the string
`"x"` (not a number).  The claim requires the count to be recomputed from
the (empty) `errors` array, i.e. to become 0; the code's `??` keeps any
non-nullish value, so the string survives normalization unchanged. -/
theorem c7_counterexample :
    postProcess (Json.obj [("assets", .arr []), ("errorsCount", .str "x")])
      = .ok (Json.obj [("assets", .arr []), ("errorsCount", .str "x"),
          ("errors", .arr []), ("warnings", .arr []),
          ("warningsCount", .num 0), ("modules", .arr []),
          ("chunks", .arr [])])
  ∧ (Json.obj [("assets", .arr []), ("errorsCount", .str "x"),
          ("errors", .arr []), ("warnings", .arr []),
          ("warningsCount", .num 0), ("modules", .arr []),
          ("chunks", .arr [])]).getField "errorsCount"
      = some (.str "x")
  ∧ (Json.obj [("assets", .arr []), ("errorsCount", .str "x"),
          ("errors", .arr []), ("warnings", .arr []),
          ("warningsCount", .num 0), ("modules", .arr []),
          ("chunks", .arr [])]).getField "errors" = some (.arr [])
  ∧ Json.str "x" ≠ Json.num 0 :=
  ⟨rfl, rfl, rfl, nofun⟩

/-- C9 (amended): normalizing the JSON representation of an
already-normalized Report a second time yields the very same Report (same
assets in the same order, same modules, chunks, errors, warnings and
counts), provided the Report's `modules` array is non-empty or no element
of its retained `children` array (when non-empty) qualifies as a valid
child.  (When `modules` came out empty and a retained `children` array
still holds an object with an `assets` array, the second normalization
selects that child instead of the Report — the claim's parenthetical
"it matches the single-build shape" fails there; see the counterexample.) -/
theorem c9_idempotent (raw r : Json)
    (h : getWebpackStatsData raw = .ok r)
    (hgood : (r.getNonEmptyArr "modules").isSome = true ∨
      (∀ cs, r.getNonEmptyArr "children" = some cs →
        findFirstIdx childValid cs = none)) :
    getWebpackStatsData r = .ok r := by
  unfold getWebpackStatsData getWebpackStatsDataFull at h
  cases hsel : selectEffective raw with
  | error e => rw [hsel] at h; cases h
  | ok sel =>
    rw [hsel] at h
    dsimp only at h
    cases hpp : postProcess ((getSelected raw sel).getD .null) with
    | error e => rw [hpp] at h; cases h
    | ok r0 =>
      rw [hpp] at h
      dsimp only at h
      injection h with h2
      subst r
      obtain ⟨l, hl⟩ := postProcess_ok_inv hpp
      obtain ⟨r1, hpp1, hro, hra, hre, hrw, hrec, hrwc, hrm, hrc, _⟩ :=
        postProcess_ok _ l hl
      have hr1 : r1 = r0 := by
        rw [hpp] at hpp1
        injection hpp1 with h3
        exact h3.symm
      subst r1
      have hA : r0.isArrayField "assets" = true := by
        unfold Json.isArrayField
        rw [hra]
      have s1 : coerceArrField r0 "errors" = r0 :=
        coerceArrField_eq_self _ _ _ hre
      have s2 : coerceArrField r0 "warnings" = r0 :=
        coerceArrField_eq_self _ _ _ hrw
      have s3 : defaultCount r0 "errorsCount" "errors" = r0 :=
        defaultCount_eq_self _ _ _ _ hrec (countOr_ne_null _ _)
      have s4 : defaultCount r0 "warningsCount" "warnings" = r0 :=
        defaultCount_eq_self _ _ _ _ hrwc (countOr_ne_null _ _)
      have s5 : sortAssetsField r0 = r0 :=
        sortAssetsField_eq_self _ _ hra (sortAssets_idem l)
      have s6 : coerceArrField r0 "modules" = r0 :=
        coerceArrField_eq_self _ _ _ hrm
      have s7 : coerceArrField r0 "chunks" = r0 :=
        coerceArrField_eq_self _ _ _ hrc
      have hppr : postProcess r0 = .ok r0 := by
        unfold postProcess
        rw [if_neg (by simp [hA]), s1, s2, s3, s4, s5, s6, s7]
      have hol : r0.isObjectLike = true := Json.isObjectLike_of_isObj _ hro
      have hselr : selectEffective r0 = .ok .topLevel := by
        rcases hgood with hm | hch
        · obtain ⟨ms, hms⟩ := Option.isSome_iff_exists.mp hm
          simp [selectEffective, hol, hms]
        · by_cases hm : (r0.getNonEmptyArr "modules").isSome = true
          · obtain ⟨ms, hms⟩ := Option.isSome_iff_exists.mp hm
            simp [selectEffective, hol, hms]
          · cases hc : r0.getNonEmptyArr "children" with
            | some cs =>
              have hfi := hch cs hc
              simp only [selectEffective, hol, Bool.true_eq_false,
                if_false, if_neg hm, hc, hfi]
              rw [if_pos hA]
            | none =>
              simp only [selectEffective, hol, Bool.true_eq_false,
                if_false, if_neg hm, hc]
              rw [if_pos hA]
      unfold getWebpackStatsData getWebpackStatsDataFull
      rw [hselr]
      dsimp only [getSelected, Option.getD]
      rw [hppr]

/-- Witness for C9: a single-build document with a non-empty `modules`
array; its normalization is a fixed point of normalization. -/
theorem c9_idempotent_witness :
    getWebpackStatsData (Json.obj [("assets", .arr []),
        ("modules", .arr [.obj []]), ("errors", .arr []),
        ("warnings", .arr []), ("errorsCount", .num 0),
        ("warningsCount", .num 0), ("chunks", .arr [])])
      = .ok (Json.obj [("assets", .arr []),
        ("modules", .arr [.obj []]), ("errors", .arr []),
        ("warnings", .arr []), ("errorsCount", .num 0),
        ("warningsCount", .num 0), ("chunks", .arr [])]) :=
  c9_idempotent (Json.obj [("assets", .arr []),
    ("modules", .arr [.obj []])]) _ rfl (Or.inl rfl)

/-- Input for the C9 counterexample: a multi-compiler document whose only
child has an empty `assets` array and itself retains a `children` array
holding a grandchild with a non-empty `assets` array. -/
def c9doc : Json :=
  .obj [("children", .arr [.obj [("assets", .arr []),
    ("children", .arr [.obj [("assets",
      .arr [.obj [("name", .str "x")]])]])]])]

/-- First normalization of `c9doc`: the child, normalized in place. -/
def c9r1 : Json :=
  .obj [("assets", .arr []),
    ("children", .arr [.obj [("assets",
      .arr [.obj [("name", .str "x")]])]]),
    ("errors", .arr []), ("warnings", .arr []),
    ("errorsCount", .num 0), ("warningsCount", .num 0),
    ("modules", .arr []), ("chunks", .arr [])]

/-- Second normalization: the grandchild is selected instead. -/
def c9r2 : Json :=
  .obj [("assets", .arr [.obj [("name", .str "x")]]),
    ("errors", .arr []), ("warnings", .arr []),
    ("errorsCount", .num 0), ("warningsCount", .num 0),
    ("modules", .arr []), ("chunks", .arr [])]

/-- C9 counterexample: normalizing `c9doc` yields the Report `c9r1` (empty
`modules`, retained non-empty `children`); normalizing `c9r1` again yields
`c9r2`, a different Report with different assets — so normalization is not
idempotent as claimed. -/
theorem c9_counterexample :
    getWebpackStatsData c9doc = .ok c9r1
  ∧ getWebpackStatsData c9r1 = .ok c9r2
  ∧ c9r1.getField "assets" = some (.arr [])
  ∧ c9r2.getField "assets" = some (.arr [.obj [("name", .str "x")]])
  ∧ c9r1 ≠ c9r2 := by
  refine ⟨rfl, rfl, rfl, rfl, fun hEq => ?_⟩
  have h2 : c9r1.getField "assets" = c9r2.getField "assets" := by rw [hEq]
  rw [show c9r1.getField "assets" = some (.arr []) from rfl,
    show c9r2.getField "assets"
      = some (.arr [.obj [("name", .str "x")]]) from rfl] at h2
  injection h2 with h3
  injection h3 with h4
  cases h4

/-- C10: normalization returns the selected input object itself rather
than a fresh copy — all coercions, count defaults and the assets sort are
performed in place on the parsed input document (or on its selected
child), so after ingest the caller's parsed document aliases the returned
Report: the Report is the designated sub-document of the updated input
(the whole document for a top-level selection, `children[i]` for a child
selection, in which case the rest of the caller's document is untouched). -/
theorem c10_in_place (raw raw2 r : Json)
    (h : getWebpackStatsDataFull raw = .ok (raw2, r)) :
    ∃ sel, selectEffective raw = .ok sel
      ∧ getSelected raw2 sel = some r
      ∧ (sel = .topLevel → raw2 = r)
      ∧ (∀ i, sel = .child i →
          ∃ cs, raw.getField "children" = some (.arr cs) ∧
            raw2 = raw.setField "children" (.arr (cs.set i r))) := by
  unfold getWebpackStatsDataFull at h
  cases hsel : selectEffective raw with
  | error e => rw [hsel] at h; cases h
  | ok sel =>
    rw [hsel] at h
    dsimp only at h
    cases hpp : postProcess ((getSelected raw sel).getD .null) with
    | error e => rw [hpp] at h; cases h
    | ok r0 =>
      rw [hpp] at h
      dsimp only at h
      injection h with h2
      injection h2 with h3 h4
      subst h4
      subst h3
      cases sel with
      | topLevel =>
        exact ⟨.topLevel, rfl, rfl, fun _ => rfl,
          fun i hi => Selection.noConfusion hi⟩
      | child i =>
        obtain ⟨cs, hcs, hfi⟩ := selectEffective_child_inv raw i hsel
        obtain ⟨hgf, _⟩ := getNonEmptyArr_some hcs
        have hobj : raw.isObj = true := Json.isObj_of_getField hgf
        have hss : setSelected raw (.child i) r0
            = raw.setField "children" (.arr (cs.set i r0)) := by
          unfold setSelected
          rw [hgf]
        have hgs : getSelected
            (raw.setField "children" (.arr (cs.set i r0))) (.child i)
            = some r0 := by
          unfold getSelected
          rw [Json.getField_setField_self _ _ _ hobj]
          obtain ⟨c, hci, _, _⟩ := findFirstIdx_some childValid cs i hfi
          exact List.get?_set_eq_of_lt _ (lt_length_of_get?_some hci)
        refine ⟨.child i, rfl, ?_, ?_, ?_⟩
        · rw [hss]
          exact hgs
        · intro hEq
          exact Selection.noConfusion hEq
        · intro i2 hi2
          injection hi2 with h5
          subst h5
          exact ⟨cs, hgf, hss⟩

/-- Witness for C10: for the document `{"assets": []}` the selection is
top-level and the returned Report is the caller's (mutated) document
itself. -/
theorem c10_in_place_witness :
    ∃ sel, selectEffective (Json.obj [("assets", .arr [])]) = .ok sel
      ∧ getSelected (Json.obj [("assets", .arr []), ("errors", .arr []),
          ("warnings", .arr []), ("errorsCount", .num 0),
          ("warningsCount", .num 0), ("modules", .arr []),
          ("chunks", .arr [])]) sel
        = some (Json.obj [("assets", .arr []), ("errors", .arr []),
          ("warnings", .arr []), ("errorsCount", .num 0),
          ("warningsCount", .num 0), ("modules", .arr []),
          ("chunks", .arr [])])
      ∧ (sel = .topLevel →
          (Json.obj [("assets", .arr []), ("errors", .arr []),
            ("warnings", .arr []), ("errorsCount", .num 0),
            ("warningsCount", .num 0), ("modules", .arr []),
            ("chunks", .arr [])])
          = Json.obj [("assets", .arr []), ("errors", .arr []),
            ("warnings", .arr []), ("errorsCount", .num 0),
            ("warningsCount", .num 0), ("modules", .arr []),
            ("chunks", .arr [])])
      ∧ (∀ i, sel = .child i →
          ∃ cs, (Json.obj [("assets", .arr [])]).getField "children"
              = some (.arr cs) ∧
            (Json.obj [("assets", .arr []), ("errors", .arr []),
              ("warnings", .arr []), ("errorsCount", .num 0),
              ("warningsCount", .num 0), ("modules", .arr []),
              ("chunks", .arr [])])
            = (Json.obj [("assets", .arr [])]).setField "children"
                (.arr (cs.set i (Json.obj [("assets", .arr []),
                  ("errors", .arr []), ("warnings", .arr []),
                  ("errorsCount", .num 0), ("warningsCount", .num 0),
                  ("modules", .arr []), ("chunks", .arr [])])))) :=
  c10_in_place _ _ _ rfl

/-- C1 (amended): normalization selects the effective report by trying
shapes in a fixed order with the first match winning: (1) an object whose
`modules` field is a non-empty array is itself the Report; (2) else if its
`children` field is a non-empty array, the first child that is object-shaped
with an `assets` array is selected, and if no child qualifies the top-level
object is used when it itself has an `assets` array, otherwise the attempt
fails with a structure error; (3) else an input with an `assets` array
becomes the Report; (4) otherwise normalization fails with a structure
error.  Amendment: only an input that is neither a JSON object nor a JSON
array fails with the `NotAnObject` error (`typeof` classifies arrays as
objects, so a JSON array passes the object gate, matches no shape, and
fails with the `UnrecognizedShape` structure error instead). -/
theorem c1_shape_selection (raw : Json) :
    (raw.isObjectLike = false →
      getWebpackStatsData raw = .error .notAnObject)
  ∧ (∀ ms, raw.getNonEmptyArr "modules" = some ms →
      selectEffective raw = .ok .topLevel)
  ∧ (raw.getNonEmptyArr "modules" = none →
      ∀ cs, raw.getNonEmptyArr "children" = some cs →
        (∀ i, findFirstIdx childValid cs = some i →
            selectEffective raw = .ok (.child i) ∧
            ∃ c, cs.get? i = some c ∧ childValid c = true ∧
              ∀ j, j < i → ∀ c2, cs.get? j = some c2 →
                childValid c2 = false)
      ∧ (findFirstIdx childValid cs = none →
            (raw.isArrayField "assets" = true →
              selectEffective raw = .ok .topLevel)
          ∧ (raw.isArrayField "assets" = false →
              getWebpackStatsData raw = .error .multiNoValidChild ∧
              NormError.multiNoValidChild.isStructureError = true)))
  ∧ (raw.isObjectLike = true → raw.getNonEmptyArr "modules" = none →
      raw.getNonEmptyArr "children" = none →
        (raw.isArrayField "assets" = true →
          selectEffective raw = .ok .topLevel)
      ∧ (raw.isArrayField "assets" = false →
          getWebpackStatsData raw = .error .unrecognizedShape ∧
          NormError.unrecognizedShape.isStructureError = true)) := by
  refine ⟨?_, ?_, ?_, ?_⟩
  · intro h
    exact selectEffective_error_propagates _ _
      (by unfold selectEffective; rw [if_pos h])
  · intro ms h
    have hol : raw.isObjectLike = true :=
      Json.isObjectLike_of_isObj _
        (Json.isObj_of_getField (getNonEmptyArr_some h).1)
    simp [selectEffective, h, hol]
  · intro hm cs hc
    have hol : raw.isObjectLike = true :=
      Json.isObjectLike_of_isObj _
        (Json.isObj_of_getField (getNonEmptyArr_some hc).1)
    refine ⟨?_, ?_⟩
    · intro i hi
      exact ⟨by simp [selectEffective, hm, hc, hi, hol],
        findFirstIdx_some childValid cs i hi⟩
    · intro hfi
      refine ⟨fun ha => by simp [selectEffective, hm, hc, hfi, hol, ha], ?_⟩
      intro ha
      refine ⟨selectEffective_error_propagates _ _ ?_, rfl⟩
      simp [selectEffective, hm, hc, hfi, hol, ha]
  · intro hol hm hc
    refine ⟨fun ha => by simp [selectEffective, hm, hc, hol, ha], ?_⟩
    intro ha
    refine ⟨selectEffective_error_propagates _ _ ?_, rfl⟩
    simp [selectEffective, hm, hc, hol, ha]

/-- Witness for C1 at a concrete non-object input: a bare number is refused
with the `NotAnObject` error. -/
theorem c1_shape_selection_witness :
    getWebpackStatsData (Json.num 3) = .error .notAnObject :=
  (c1_shape_selection (Json.num 3)).1 rfl

/-- C1 counterexample: a JSON array `[]` is not a JSON object, yet
normalization rejects it with the `UnrecognizedShape` structure error, not
the `NotAnObject` error the claim requires for every non-object input. -/
theorem c1_counterexample :
    getWebpackStatsData (Json.arr []) = .error .unrecognizedShape
  ∧ (Json.arr []).isObj = false
  ∧ NormError.unrecognizedShape ≠ NormError.notAnObject :=
  ⟨rfl, rfl, by decide⟩

/-!
Part 2 models the serve-command resolvers over the typed view the code
casts the normalized stats to (the `WebpackStatsNative` interfaces):
`getModulesForAsset` and the `/api/module-dependencies/:ref` route handler
with its `modulesById`/`modulesByIdentifier` maps.  After
`getWebpackStatsData`, `assets`/`modules`/`chunks` are arrays.  Each parsed
JSON object is a distinct JavaScript object, so `Set`/`Map` reference
semantics are modelled by an `oid` tag (object identity).
-/

/-- A JS id value (`string | number`).  `Set.has`/`Map.has` compare these
with SameValueZero: value equality within a type, never across the two
types (`1` does not match `"1"`). -/
inductive JsVal where
  | num : Int → JsVal
  | str : String → JsVal
deriving DecidableEq

/-- JavaScript `String(v)` on an id value. -/
def JsVal.toStr : JsVal → String
  | .num n => toString n
  | .str s => s

/-- `WebpackAssetNative` — the fields the resolvers read. -/
structure WebpackAssetNative where
  name : String
  size : Option Int
  chunks : List JsVal

/-- `WebpackModuleNative` — the fields the resolvers read; `oid` is the
identity of the parsed JSON object; `modules` is the optional nested list
of concatenated modules. -/
inductive WebpackModuleNative where
  | mk : (oid : Nat) → (id : Option JsVal) → (identifier : String) →
      (name : String) → (size : Option Int) → (chunks : List JsVal) →
      (issuer : Option String) → (issuerId : Option JsVal) →
      (modules : Option (List WebpackModuleNative)) → WebpackModuleNative

namespace WebpackModuleNative

def oid : WebpackModuleNative → Nat
  | .mk o _ _ _ _ _ _ _ _ => o

def id : WebpackModuleNative → Option JsVal
  | .mk _ i _ _ _ _ _ _ _ => i

def identifier : WebpackModuleNative → String
  | .mk _ _ idf _ _ _ _ _ _ => idf

def name : WebpackModuleNative → String
  | .mk _ _ _ n _ _ _ _ _ => n

def size : WebpackModuleNative → Option Int
  | .mk _ _ _ _ s _ _ _ _ => s

def chunks : WebpackModuleNative → List JsVal
  | .mk _ _ _ _ _ c _ _ _ => c

def issuer : WebpackModuleNative → Option String
  | .mk _ _ _ _ _ _ iss _ _ => iss

def issuerId : WebpackModuleNative → Option JsVal
  | .mk _ _ _ _ _ _ _ ii _ => ii

def modules : WebpackModuleNative → Option (List WebpackModuleNative)
  | .mk _ _ _ _ _ _ _ _ m => m

/-- Overwrite the nested `modules` list — the effect, through the alias,
of the handler's in-place `directDependencies.sort(...)`. -/
def setModules : WebpackModuleNative → List WebpackModuleNative →
    WebpackModuleNative
  | .mk o i idf n s c iss ii _, ms => .mk o i idf n s c iss ii (some ms)

end WebpackModuleNative

/-- `WebpackChunkNative` — the fields the resolvers read; `modules` is the
optional inlined per-chunk module list. -/
structure WebpackChunkNative where
  id : JsVal
  size : Option Int
  modules : Option (List WebpackModuleNative)

/-- The normalized `statsData` as typed by the code — the fields the
resolvers read (all three are arrays after normalization). -/
structure WebpackStatsNative where
  assets : List WebpackAssetNative
  modules : List WebpackModuleNative
  chunks : List WebpackChunkNative

/-- `(module.size ?? 0)` used by both module-sorting comparators. -/
def sizeDM (m : WebpackModuleNative) : Int :=
  m.size.getD 0

/-- The ordering induced by the comparator
`(a, b) => (b.size ?? 0) - (a.size ?? 0)` on modules. -/
def rModule (a b : WebpackModuleNative) : Prop := sizeDM b ≤ sizeDM a

instance : DecidableRel rModule := fun a b =>
  inferInstanceAs (Decidable (sizeDM b ≤ sizeDM a))

instance : IsTotal WebpackModuleNative rModule :=
  ⟨fun a b => (Int.le_total (sizeDM b) (sizeDM a)).imp id id⟩

instance : IsTrans WebpackModuleNative rModule :=
  ⟨fun _ _ _ hab hbc => le_trans hbc hab⟩

/-- `.sort((a, b) => (b.size ?? 0) - (a.size ?? 0))` on a module array
(stable, as `Array.prototype.sort` is since ES2019). -/
def sortModules (l : List WebpackModuleNative) : List WebpackModuleNative :=
  l.insertionSort rModule

/-- `Set.add` on module objects: reference (`oid`) equality, first
insertion wins, iteration in insertion order. -/
def insertModOnce (acc : List WebpackModuleNative)
    (m : WebpackModuleNative) : List WebpackModuleNative :=
  if acc.any (fun x => x.oid == m.oid) then acc else acc ++ [m]

/-- The chunk loop of `getModulesForAsset`: for every chunk whose raw `id`
is in the asset's chunk `Set` and which carries an inlined `modules` list,
add every listed module to the `relevantModules` set. -/
def collectChunkModules (sd : WebpackStatsNative)
    (asset : WebpackAssetNative) : List WebpackModuleNative :=
  sd.chunks.foldl (fun acc c =>
    if asset.chunks.contains c.id then
      match c.modules with
      | some ms => ms.foldl insertModOnce acc
      | none => acc
    else acc) []

/-- The fallback loop of `getModulesForAsset` (entered with the set still
empty): add every top-level module whose `chunks` intersect the asset's
chunk set. -/
def collectFallbackModules (sd : WebpackStatsNative)
    (asset : WebpackAssetNative) : List WebpackModuleNative :=
  sd.modules.foldl (fun acc m =>
    if m.chunks.any (fun cid => asset.chunks.contains cid) then
      insertModOnce acc m
    else acc) []

/-- `getModulesForAsset` from the serve command: find the asset by exact
`name`; collect the modules of every chunk whose `id` is a member of the
asset's chunk set (`Set.has` — SameValueZero, no string normalization)
into a `Set` in iteration order; if that set is empty, fall back to
scanning `statsData.modules` for modules whose `chunks` intersect the
asset's chunk set; sort descending by size.  (Post-normalization
`statsData.chunks` is always an array — an empty array is truthy in JS, so
the `!statsData.chunks` early return never fires on a normalized report.) -/
def getModulesForAsset (sd : WebpackStatsNative) (assetName : String) :
    List WebpackModuleNative :=
  match sd.assets.find? (fun a => a.name == assetName) with
  | none => []
  | some asset =>
    sortModules
      (if (collectChunkModules sd asset).isEmpty then
        collectFallbackModules sd asset
      else collectChunkModules sd asset)

/-- `modulesById.get(ref)`: the map is built by inserting every module
whose `id` is non-nullish, keyed by the RAW id value (a later module with
the same key overwrites an earlier one), and is queried with the string
route parameter.  SameValueZero key equality means only a module whose
`id` IS the string `ref` can be found — a numeric id never matches. -/
def modulesByIdLookup (sd : WebpackStatsNative) (ref : String) :
    Option WebpackModuleNative :=
  sd.modules.reverse.find? (fun m => m.id == some (.str ref))

/-- `modulesByIdentifier.get(ref)`: built from the modules with a truthy
(non-empty) `identifier`, queried by exact string equality. -/
def modulesByIdentifierLookup (sd : WebpackStatsNative) (ref : String) :
    Option WebpackModuleNative :=
  sd.modules.reverse.find? (fun m =>
    m.identifier == ref && !(m.identifier == ""))

/-- `ref.includes('/')` — the reference contains a path separator. -/
def containsSlash (s : String) : Bool :=
  s.data.contains '/'

/-- Target resolution of the `/api/module-dependencies` handler: by the id
map, else by the identifier map, else — only when the reference contains a
`'/'` — a linear scan of `statsData.modules` for an exact `name` match. -/
def findTarget (sd : WebpackStatsNative) (ref : String) :
    Option WebpackModuleNative :=
  match modulesByIdLookup sd ref with
  | some m => some m
  | none =>
    match modulesByIdentifierLookup sd ref with
    | some m => some m
    | none =>
      if containsSlash ref then sd.modules.find? (fun m => m.name == ref)
      else none

/-- The issuer-id test of the dependents scan: `targetId != null &&
child.issuerId != null && String(child.issuerId) === String(targetId)`. -/
def issuerIdMatches (target pc : WebpackModuleNative) : Bool :=
  match target.id, pc.issuerId with
  | some tid, some iid => iid.toStr == tid.toStr
  | _, _ => false

/-- The issuer-identifier test: `targetIdentifier && child.issuer ===
targetIdentifier` (an empty target identifier is falsy; a `null` issuer
never equals a string). -/
def issuerIdentifierMatches (target pc : WebpackModuleNative) : Bool :=
  !(target.identifier == "") && pc.issuer == some target.identifier

/-- One iteration of the dependents loop: push on an issuer-id match and
`continue`; otherwise push on an issuer-identifier match — so each
candidate is pushed at most once. -/
def scanStep (target : WebpackModuleNative)
    (acc : List WebpackModuleNative) (pc : WebpackModuleNative) :
    List WebpackModuleNative :=
  if issuerIdMatches target pc then acc ++ [pc]
  else if issuerIdentifierMatches target pc then acc ++ [pc]
  else acc

/-- The issuer-based fallback scan over `statsData.modules`. -/
def directDependentsScan (sd : WebpackStatsNative)
    (target : WebpackModuleNative) : List WebpackModuleNative :=
  sd.modules.foldl (scanStep target) []

/-- The `/api/module-dependencies/:ref` handler: resolve the target, take
its dependents (the target's own non-empty concatenated `modules` list,
else the issuer scan), sort descending by size, return them.  The second
component is the stats data AFTER the call: in the concatenation case
`directDependencies` aliases `targetModule.modules`, so the in-place
`.sort` reorders the target's nested list inside the report (parsed JSON
objects are pairwise distinct, so the target is the module in
`statsData.modules` carrying its `oid`). -/
def resolveModuleDependentsFull (sd : WebpackStatsNative) (ref : String) :
    List WebpackModuleNative × WebpackStatsNative :=
  match findTarget sd ref with
  | none => ([], sd)
  | some target =>
    match target.modules with
    | some (m0 :: ms) =>
      (sortModules (m0 :: ms),
       { sd with modules := sd.modules.map (fun m =>
           if m.oid == target.oid then
             m.setModules (sortModules (m0 :: ms))
           else m) })
    | _ => (sortModules (directDependentsScan sd target), sd)

/-- The response of the `/api/module-dependencies/:ref` handler. -/
def resolveModuleDependents (sd : WebpackStatsNative) (ref : String) :
    List WebpackModuleNative :=
  (resolveModuleDependentsFull sd ref).1

/-- The chunk-collected modules, flattened: the modules of every chunk
whose raw `id` is SameValueZero-equal to a member of the asset's `chunks`
list, in chunk order. -/
def chunkModulesFlat (sd : WebpackStatsNative)
    (asset : WebpackAssetNative) : List WebpackModuleNative :=
  ((sd.chunks.filter (fun c => asset.chunks.contains c.id)).map
    (fun c => c.modules.getD [])).flatten

/-- The fallback modules: the top-level modules whose own `chunks`
intersect the asset's chunk set (raw membership). -/
def fallbackModules (sd : WebpackStatsNative)
    (asset : WebpackAssetNative) : List WebpackModuleNative :=
  sd.modules.filter (fun m =>
    m.chunks.any (fun cid => asset.chunks.contains cid))

/-- C2's reading of `getModulesForAsset`, written from the claim's words:
chunk-id membership is decided after normalizing BOTH sides to string form
(so numeric and string forms of the same id match), collection is
deduplicated by object identity, the fallback runs only when the
collection is empty (with the same normalized membership), and the result
is sorted descending by `size`. -/
def getModulesForAssetClaimed (sd : WebpackStatsNative)
    (assetName : String) : List WebpackModuleNative :=
  match sd.assets.find? (fun a => a.name == assetName) with
  | none => []
  | some asset =>
    sortModules
      (if (((((sd.chunks.filter (fun c =>
            asset.chunks.any (fun v => v.toStr == c.id.toStr))).map
            (fun c => c.modules.getD [])).flatten).foldl
            insertModOnce [])).isEmpty then
        sd.modules.foldl (fun acc m =>
          if m.chunks.any (fun cid =>
              asset.chunks.any (fun v => v.toStr == cid.toStr)) then
            insertModOnce acc m
          else acc) []
      else ((((sd.chunks.filter (fun c =>
          asset.chunks.any (fun v => v.toStr == c.id.toStr))).map
          (fun c => c.modules.getD [])).flatten).foldl
          insertModOnce []))

theorem chunksFold_eq (asset : WebpackAssetNative) :
    ∀ (cl : List WebpackChunkNative) (acc : List WebpackModuleNative),
      cl.foldl (fun acc c =>
        if asset.chunks.contains c.id then
          match c.modules with
          | some ms => ms.foldl insertModOnce acc
          | none => acc
        else acc) acc
      = (((cl.filter (fun c => asset.chunks.contains c.id)).map
          (fun c => c.modules.getD [])).flatten).foldl insertModOnce acc := by
  intro cl
  induction cl with
  | nil => intro acc; rfl
  | cons c t ih =>
    intro acc
    rw [List.foldl_cons]
    by_cases hc : asset.chunks.contains c.id = true
    · rw [if_pos hc,
        @List.filter_cons_of_pos _ (fun c => asset.chunks.contains c.id)
          c t hc,
        List.map_cons, List.flatten_cons, List.foldl_append]
      cases hm : c.modules with
      | some ms =>
        simp only [hm, Option.getD_some]
        exact ih _
      | none =>
        simp only [hm, Option.getD_none, List.foldl_nil]
        exact ih _
    · rw [if_neg hc,
        @List.filter_cons_of_neg _ (fun c => asset.chunks.contains c.id)
          c t hc]
      exact ih _

theorem foldl_insertModOnce_eq_append
    (l : List WebpackModuleNative)
    (hd : l.Pairwise (fun a b => a.oid ≠ b.oid)) :
    ∀ acc, (∀ x ∈ acc, ∀ y ∈ l, x.oid ≠ y.oid) →
      l.foldl insertModOnce acc = acc ++ l := by
  induction l with
  | nil => intro acc _; simp
  | cons m t ih =>
    intro acc hacc
    have hnotin : acc.any (fun x => x.oid == m.oid) = false := by
      rw [List.any_eq_false]
      intro x hx
      simpa using hacc x hx m (List.mem_cons_self m t)
    have hstep : insertModOnce acc m = acc ++ [m] := by
      unfold insertModOnce
      rw [hnotin]
      simp
    rw [List.foldl_cons, hstep,
      ih (List.Pairwise.of_cons hd) (acc ++ [m]) ?_]
    · simp
    · intro x hx y hy
      rcases List.mem_append.mp hx with hx1 | hx2
      · exact hacc x hx1 y (List.mem_cons_of_mem _ hy)
      · rw [List.mem_singleton.mp hx2]
        exact (List.pairwise_cons.mp hd).1 y hy

theorem foldl_insertIf_eq_filter (P : WebpackModuleNative → Bool)
    (l : List WebpackModuleNative)
    (hd : l.Pairwise (fun a b => a.oid ≠ b.oid)) :
    ∀ acc, (∀ x ∈ acc, ∀ y ∈ l, x.oid ≠ y.oid) →
      l.foldl (fun acc m => if P m then insertModOnce acc m else acc) acc
        = acc ++ l.filter P := by
  induction l with
  | nil => intro acc _; simp
  | cons m t ih =>
    intro acc hacc
    by_cases hp : P m = true
    · have hnotin : acc.any (fun x => x.oid == m.oid) = false := by
        rw [List.any_eq_false]
        intro x hx
        simpa using hacc x hx m (List.mem_cons_self m t)
      have hstep : insertModOnce acc m = acc ++ [m] := by
        unfold insertModOnce
        rw [hnotin]
        simp
      rw [List.foldl_cons, if_pos hp, hstep,
        ih (List.Pairwise.of_cons hd) (acc ++ [m]) ?_,
        List.filter_cons_of_pos hp]
      · simp
      · intro x hx y hy
        rcases List.mem_append.mp hx with hx1 | hx2
        · exact hacc x hx1 y (List.mem_cons_of_mem _ hy)
        · rw [List.mem_singleton.mp hx2]
          exact (List.pairwise_cons.mp hd).1 y hy
    · rw [List.foldl_cons, if_neg hp,
        ih (List.Pairwise.of_cons hd) acc
          (fun x hx y hy => hacc x hx y (List.mem_cons_of_mem _ hy)),
        List.filter_cons_of_neg (by simpa using hp)]

theorem foldl_insertIf_nil (P : WebpackModuleNative → Bool)
    (l : List WebpackModuleNative) (h : ∀ m ∈ l, P m = false) :
    ∀ acc,
      l.foldl (fun acc m => if P m then insertModOnce acc m else acc) acc
        = acc := by
  induction l with
  | nil => intro acc; rfl
  | cons m t ih =>
    intro acc
    rw [List.foldl_cons, if_neg (by simp [h m (List.mem_cons_self m t)]),
      ih (fun x hx => h x (List.mem_cons_of_mem _ hx))]

theorem foldl_scanStep_eq_filter (target : WebpackModuleNative)
    (l : List WebpackModuleNative) :
    ∀ acc, l.foldl (scanStep target) acc
      = acc ++ l.filter (fun pc =>
          issuerIdMatches target pc || issuerIdentifierMatches target pc) := by
  induction l with
  | nil => intro acc; simp
  | cons pc t ih =>
    intro acc
    by_cases h1 : issuerIdMatches target pc = true
    · rw [List.foldl_cons, show scanStep target acc pc = acc ++ [pc] from
        by unfold scanStep; rw [if_pos h1], ih,
        List.filter_cons_of_pos (by simp [h1])]
      simp
    · by_cases h2 : issuerIdentifierMatches target pc = true
      · rw [List.foldl_cons, show scanStep target acc pc = acc ++ [pc] from
          by unfold scanStep; rw [if_neg (by simp [h1]), if_pos h2], ih,
          List.filter_cons_of_pos (by simp [h2])]
        simp
      · rw [List.foldl_cons, show scanStep target acc pc = acc from
          by unfold scanStep; rw [if_neg (by simp [h1]), if_neg (by simp [h2])],
          ih, List.filter_cons_of_neg (by simp [h1, h2])]

theorem directDependentsScan_eq_filter (sd : WebpackStatsNative)
    (target : WebpackModuleNative) :
    directDependentsScan sd target = sd.modules.filter (fun pc =>
      issuerIdMatches target pc || issuerIdentifierMatches target pc) := by
  unfold directDependentsScan
  rw [foldl_scanStep_eq_filter]
  simp

/-- C3: given a resolved target module, the dependents endpoint returns
exactly the target's nested `modules` list when that field is a non-empty
array — without additionally scanning for issuer-based dependents —
otherwise exactly the top-level modules whose `issuerId` stringifies equal
to the target's `id` (when both are present, tolerating numeric/string
mismatch) or whose `issuer` string equals the target's `identifier`
exactly, the issuer-id match taking precedence per candidate so no module
is inserted twice; in both cases sorted descending by `size`. -/
theorem c3_dependents (sd : WebpackStatsNative) (ref : String)
    (target : WebpackModuleNative) (h : findTarget sd ref = some target) :
    List.Sorted rModule (resolveModuleDependents sd ref)
  ∧ (∀ m0 ms, target.modules = some (m0 :: ms) →
      List.Perm (resolveModuleDependents sd ref) (m0 :: ms))
  ∧ ((target.modules = none ∨ target.modules = some []) →
      List.Perm (resolveModuleDependents sd ref)
        (sd.modules.filter (fun pc => issuerIdMatches target pc ||
          issuerIdentifierMatches target pc))) := by
  unfold resolveModuleDependents resolveModuleDependentsFull
  rw [h]
  cases htm : target.modules with
  | none =>
    simp only [htm]
    refine ⟨List.sorted_insertionSort _ _, ?_, ?_⟩
    · intro m0 ms heq
      cases heq
    · intro _
      rw [directDependentsScan_eq_filter]
      exact List.perm_insertionSort _ _
  | some l =>
    cases l with
    | nil =>
      simp only [htm]
      refine ⟨List.sorted_insertionSort _ _, ?_, ?_⟩
      · intro m0 ms heq
        injection heq with h2
        cases h2
      · intro _
        rw [directDependentsScan_eq_filter]
        exact List.perm_insertionSort _ _
    | cons m0 ms =>
      simp only [htm]
      refine ⟨List.sorted_insertionSort _ _, ?_, ?_⟩
      · intro m1 ms1 heq
        injection heq with h2
        rw [← h2]
        exact List.perm_insertionSort _ _
      · intro hc
        rcases hc with hc | hc
        · cases hc
        · injection hc with h2
          cases h2

/-- Modules used by the C3 witness: two concatenated sub-modules of sizes
1 and 2 nested inside a target module found by its string id. -/
def c3ma : WebpackModuleNative :=
  .mk 10 none "" "a" (some 1) [] none none none

def c3mb : WebpackModuleNative :=
  .mk 11 none "" "b" (some 2) [] none none none

def c3target : WebpackModuleNative :=
  .mk 1 (some (.str "t")) "idT" "t" (some 0) [] none none
    (some [c3ma, c3mb])

def c3sd : WebpackStatsNative := ⟨[], [c3target], []⟩

/-- Witness for C3: with the target resolved by id "t", the response is a
sorted permutation of its nested concatenated modules. -/
theorem c3_dependents_witness :
    List.Sorted rModule (resolveModuleDependents c3sd "t")
  ∧ List.Perm (resolveModuleDependents c3sd "t") [c3ma, c3mb] :=
  ⟨(c3_dependents c3sd "t" c3target rfl).1,
   (c3_dependents c3sd "t" c3target rfl).2.1 c3ma [c3mb] rfl⟩

/-- Modules of the C4 failing input: `c4mod` stores its id as the NUMBER
5; `c4dep` names it as issuer through the STRING "5". -/
def c4mod : WebpackModuleNative :=
  .mk 1 (some (.num 5)) "./a.js" "./a.js" (some 10) [] none none none

def c4dep : WebpackModuleNative :=
  .mk 2 (some (.num 7)) "./b.js" "./b.js" (some 4) [] none
    (some (.str "5")) none

def c4sd : WebpackStatsNative := ⟨[], [c4mod, c4dep], []⟩

/-- C4 (code bug): looking the target up by the route string "5" must find
the module stored with numeric id 5 (`String(5) = "5"`), and `c4dep` —
whose `issuerId` stringifies equal to that id — should then be returned.
The code's `Map` was keyed by the raw numeric id and queried with the
string, so SameValueZero never matches: the target stays unresolved, and
the endpoint answers the empty list. -/
theorem c4_numeric_id_lookup_fails :
    c4mod.id = some (.num 5)
  ∧ (JsVal.num 5).toStr = "5"
  ∧ issuerIdMatches c4mod c4dep = true
  ∧ findTarget c4sd "5" = none
  ∧ resolveModuleDependents c4sd "5" = [] :=
  ⟨rfl, rfl, rfl, rfl, rfl⟩

/-- C5 (amended): `getModulesForAsset` never throws (it is a total
function of the stats); it returns the empty sequence when the asset name
has no exact match; and when `report.chunks` is empty the chunk collection
is empty, so the result is empty exactly when no top-level module's
`chunks` intersect the asset's chunk set — an empty `chunks` array alone
does NOT force an empty result, because `![]` is falsy in JavaScript and
the fallback scan still runs. -/
theorem c5_not_found_empty (sd : WebpackStatsNative) (nm : String) :
    (sd.assets.find? (fun a => a.name == nm) = none →
      getModulesForAsset sd nm = [])
  ∧ (∀ asset, sd.assets.find? (fun a => a.name == nm) = some asset →
      sd.chunks = [] →
      (∀ m, m ∈ sd.modules →
        m.chunks.any (fun cid => asset.chunks.contains cid) = false) →
      getModulesForAsset sd nm = []) := by
  constructor
  · intro h
    unfold getModulesForAsset
    rw [h]
  · intro asset hfind hchunks hnone
    unfold getModulesForAsset
    rw [hfind]
    dsimp only
    have h1 : collectChunkModules sd asset = [] := by
      unfold collectChunkModules
      rw [hchunks]
      rfl
    have h2 : collectFallbackModules sd asset = [] := by
      unfold collectFallbackModules
      exact foldl_insertIf_nil _ _ hnone []
    rw [h1, h2]
    rfl

/-- Witness for C5 on an empty report: an unknown asset name resolves to
the empty module list. -/
theorem c5_not_found_empty_witness :
    getModulesForAsset ⟨[], [], []⟩ "x" = [] :=
  (c5_not_found_empty ⟨[], [], []⟩ "x").1 rfl

/-- The module of the C5 counterexample, associated with chunk id 0. -/
def c5m : WebpackModuleNative :=
  .mk 1 (some (.num 1)) "./m.js" "./m.js" (some 7) [.num 0] none none none

/-- The C5 counterexample report: the asset references chunk 0,
`report.chunks` is EMPTY, and a top-level module lists chunk 0. -/
def c5sd : WebpackStatsNative :=
  ⟨[⟨"a", some 7, [.num 0]⟩], [c5m], []⟩

/-- C5 counterexample: with `report.chunks` empty the claim demands the
empty sequence, but the code's fallback scan still matches `c5m` through
the asset's chunk ids and returns it. -/
theorem c5_counterexample :
    c5sd.chunks = []
  ∧ getModulesForAsset c5sd "a" = [c5m]
  ∧ ([c5m] ≠ ([] : List WebpackModuleNative)) :=
  ⟨rfl, rfl, nofun⟩

/-- C2 (amended): for every asset found by exact name — on a report whose
parsed module objects are pairwise distinct, as `JSON.parse` guarantees —
`getModulesForAsset` returns exactly the modules collected from chunks
whose raw `id` is a SameValueZero member of the asset's chunk-reference
set (numeric and string forms of the same id do NOT match: membership is
not string-normalized), and only when this collection is empty the modules
of `report.modules` whose own `chunks` intersect the asset's chunk set
(same raw membership); the result is sorted descending by `size`. -/
theorem c2_asset_modules (sd : WebpackStatsNative) (nm : String)
    (asset : WebpackAssetNative)
    (hfind : sd.assets.find? (fun a => a.name == nm) = some asset)
    (hd1 : (chunkModulesFlat sd asset).Pairwise (fun a b => a.oid ≠ b.oid))
    (hd2 : sd.modules.Pairwise (fun a b => a.oid ≠ b.oid)) :
    List.Sorted rModule (getModulesForAsset sd nm)
  ∧ (chunkModulesFlat sd asset ≠ [] →
      List.Perm (getModulesForAsset sd nm) (chunkModulesFlat sd asset))
  ∧ (chunkModulesFlat sd asset = [] →
      List.Perm (getModulesForAsset sd nm) (fallbackModules sd asset)) := by
  have hcc : collectChunkModules sd asset = chunkModulesFlat sd asset := by
    unfold collectChunkModules
    rw [chunksFold_eq]
    show List.foldl insertModOnce [] (chunkModulesFlat sd asset)
      = chunkModulesFlat sd asset
    rw [foldl_insertModOnce_eq_append _ hd1 []
      (fun x hx => absurd hx (List.not_mem_nil x))]
    rfl
  have hfb : collectFallbackModules sd asset = fallbackModules sd asset := by
    unfold collectFallbackModules fallbackModules
    rw [foldl_insertIf_eq_filter _ _ hd2 []
      (fun x hx => absurd hx (List.not_mem_nil x))]
    rfl
  unfold getModulesForAsset
  rw [hfind]
  dsimp only
  rw [hcc, hfb]
  refine ⟨?_, ?_, ?_⟩
  · cases hem : (chunkModulesFlat sd asset).isEmpty <;>
      exact List.sorted_insertionSort _ _
  · intro hne
    rw [if_neg (fun hc => hne (List.isEmpty_iff.mp hc))]
    exact List.perm_insertionSort _ _
  · intro heq
    rw [if_pos (List.isEmpty_iff.mpr heq)]
    exact List.perm_insertionSort _ _

/-- The module, asset and report of the C2 witness: a single chunk whose
raw numeric id 0 is listed (also as the number 0) by the asset. -/
def c2wm : WebpackModuleNative :=
  .mk 1 (some (.num 3)) "./w.js" "./w.js" (some 9) [.num 0] none none none

def c2wasset : WebpackAssetNative := ⟨"a", some 9, [.num 0]⟩

def c2wsd : WebpackStatsNative :=
  ⟨[c2wasset], [], [⟨.num 0, some 9, some [c2wm]⟩]⟩

/-- Witness for C2: the chunk collection is non-empty and the result is a
sorted permutation of it. -/
theorem c2_asset_modules_witness :
    List.Sorted rModule (getModulesForAsset c2wsd "a")
  ∧ List.Perm (getModulesForAsset c2wsd "a")
      (chunkModulesFlat c2wsd c2wasset) :=
  ⟨(c2_asset_modules c2wsd "a" c2wasset rfl
      (by exact List.pairwise_singleton _ _)
      List.Pairwise.nil).1,
   (c2_asset_modules c2wsd "a" c2wasset rfl
      (by exact List.pairwise_singleton _ _)
      List.Pairwise.nil).2.1
     (fun h => List.noConfusion
       (h : ([c2wm] : List WebpackModuleNative) = []))⟩

/-- The module, asset and report of the C2 counterexample: the asset
references its chunk by the STRING "1", the chunk stores its id as the
NUMBER 1. -/
def c2m : WebpackModuleNative :=
  .mk 1 (some (.num 3)) "./c.js" "./c.js" (some 5) [.num 1] none none none

def c2sd : WebpackStatsNative :=
  ⟨[⟨"a.js", some 5, [.str "1"]⟩], [], [⟨.num 1, some 5, some [c2m]⟩]⟩

/-- C2 counterexample: under the claim's string-normalized membership the
chunk (id `1`) matches the asset's reference (`"1"`) and `c2m` is
returned; the code compares raw values with SameValueZero, the chunk never
matches, the fallback finds nothing, and the result is empty. -/
theorem c2_counterexample :
    getModulesForAsset c2sd "a.js" = []
  ∧ getModulesForAssetClaimed c2sd "a.js" = [c2m]
  ∧ (JsVal.num 1).toStr = (JsVal.str "1").toStr
  ∧ ([] : List WebpackModuleNative) ≠ [c2m] :=
  ⟨rfl, rfl, rfl, nofun⟩

/-- Two module objects agree on every field, except that the nested
`modules` lists may be permutations of one another (same elements,
possibly reordered). -/
def sameUpToNestedOrder (m m2 : WebpackModuleNative) : Prop :=
  m2.oid = m.oid ∧ m2.id = m.id ∧ m2.identifier = m.identifier ∧
  m2.name = m.name ∧ m2.size = m.size ∧ m2.chunks = m.chunks ∧
  m2.issuer = m.issuer ∧ m2.issuerId = m.issuerId ∧
  (match m.modules, m2.modules with
   | some l, some l2 => List.Perm l2 l
   | none, none => True
   | _, _ => False)

theorem sameUpToNestedOrder_refl (m : WebpackModuleNative) :
    sameUpToNestedOrder m m := by
  refine ⟨rfl, rfl, rfl, rfl, rfl, rfl, rfl, rfl, ?_⟩
  cases hm : m.modules with
  | some l =>
    dsimp only
    exact List.Perm.refl l
  | none => trivial

theorem setModules_oid (m : WebpackModuleNative)
    (ms : List WebpackModuleNative) : (m.setModules ms).oid = m.oid := by
  cases m
  rfl

theorem setModules_id (m : WebpackModuleNative)
    (ms : List WebpackModuleNative) : (m.setModules ms).id = m.id := by
  cases m
  rfl

theorem setModules_identifier (m : WebpackModuleNative)
    (ms : List WebpackModuleNative) :
    (m.setModules ms).identifier = m.identifier := by
  cases m
  rfl

theorem setModules_name (m : WebpackModuleNative)
    (ms : List WebpackModuleNative) : (m.setModules ms).name = m.name := by
  cases m
  rfl

theorem setModules_size (m : WebpackModuleNative)
    (ms : List WebpackModuleNative) : (m.setModules ms).size = m.size := by
  cases m
  rfl

theorem setModules_chunks (m : WebpackModuleNative)
    (ms : List WebpackModuleNative) :
    (m.setModules ms).chunks = m.chunks := by
  cases m
  rfl

theorem setModules_issuer (m : WebpackModuleNative)
    (ms : List WebpackModuleNative) :
    (m.setModules ms).issuer = m.issuer := by
  cases m
  rfl

theorem setModules_issuerId (m : WebpackModuleNative)
    (ms : List WebpackModuleNative) :
    (m.setModules ms).issuerId = m.issuerId := by
  cases m
  rfl

theorem setModules_modules (m : WebpackModuleNative)
    (ms : List WebpackModuleNative) :
    (m.setModules ms).modules = some ms := by
  cases m
  rfl

/-- A resolved target is one of the report's top-level modules (all three
resolution routes search `statsData.modules`). -/
theorem findTarget_mem {sd : WebpackStatsNative} {ref : String}
    {target : WebpackModuleNative} (h : findTarget sd ref = some target) :
    target ∈ sd.modules := by
  unfold findTarget at h
  cases h1 : modulesByIdLookup sd ref with
  | some m =>
    rw [h1] at h
    injection h with h2
    subst h2
    exact List.mem_reverse.mp (List.mem_of_find?_eq_some h1)
  | none =>
    rw [h1] at h
    dsimp only at h
    cases h2 : modulesByIdentifierLookup sd ref with
    | some m =>
      rw [h2] at h
      injection h with h3
      subst h3
      exact List.mem_reverse.mp (List.mem_of_find?_eq_some h2)
    | none =>
      rw [h2] at h
      dsimp only at h
      by_cases h3 : containsSlash ref = true
      · rw [if_pos h3] at h
        exact List.mem_of_find?_eq_some h
      · rw [if_neg h3] at h
        cases h

theorem forall₂_map_id_of_no_oid (target : WebpackModuleNative)
    (srt : List WebpackModuleNative) :
    ∀ t : List WebpackModuleNative, (∀ y ∈ t, y.oid ≠ target.oid) →
      List.Forall₂ sameUpToNestedOrder t (t.map (fun m =>
        if m.oid == target.oid then m.setModules srt else m)) := by
  intro t
  induction t with
  | nil => intro _; exact List.Forall₂.nil
  | cons x t2 ih =>
    intro hno
    rw [List.map_cons]
    have hx : (x.oid == target.oid) = false := by
      rw [beq_eq_false_iff_ne]
      exact hno x (List.mem_cons_self x t2)
    refine List.Forall₂.cons ?_ (ih (fun y hy =>
      hno y (List.mem_cons_of_mem _ hy)))
    rw [show (if x.oid == target.oid then x.setModules srt else x) = x from
      by rw [hx]; simp]
    exact sameUpToNestedOrder_refl x

theorem forall₂_alias_sort (target : WebpackModuleNative)
    (l0 : List WebpackModuleNative) (htm : target.modules = some l0)
    (srt : List WebpackModuleNative) (hperm : List.Perm srt l0) :
    ∀ l : List WebpackModuleNative,
      l.Pairwise (fun a b => a.oid ≠ b.oid) → target ∈ l →
      List.Forall₂ sameUpToNestedOrder l (l.map (fun m =>
        if m.oid == target.oid then m.setModules srt else m)) := by
  intro l
  induction l with
  | nil => intro _ hmem; exact absurd hmem (List.not_mem_nil target)
  | cons x t ih =>
    intro hp hmem
    rw [List.map_cons]
    rcases List.mem_cons.mp hmem with hx | ht
    · have hxo : (x.oid == target.oid) = true := by
        rw [← hx]
        simp
      refine List.Forall₂.cons ?_ ?_
      · rw [show (if x.oid == target.oid then x.setModules srt else x)
            = x.setModules srt from by rw [hxo]; simp]
        refine ⟨setModules_oid x srt, setModules_id x srt,
          setModules_identifier x srt, setModules_name x srt,
          setModules_size x srt, setModules_chunks x srt,
          setModules_issuer x srt, setModules_issuerId x srt, ?_⟩
        rw [setModules_modules, ← hx, htm]
        exact hperm
      · refine forall₂_map_id_of_no_oid target srt t (fun y hy hoid => ?_)
        have := (List.pairwise_cons.mp hp).1 y hy
        rw [← hx] at this
        exact this hoid.symm
    · have hxo : (x.oid == target.oid) = false := by
        rw [beq_eq_false_iff_ne]
        exact (List.pairwise_cons.mp hp).1 target ht
      refine List.Forall₂.cons ?_ (ih (List.Pairwise.of_cons hp) ht)
      rw [show (if x.oid == target.oid then x.setModules srt else x) = x
        from by rw [hxo]; simp]
      exact sameUpToNestedOrder_refl x

/-- C8 (amended): on a report whose parsed module objects are pairwise
distinct, `getModulesForAsset` never writes to the report (its embedding
is a pure function), and `resolveModuleDependents` leaves the report's
assets and chunks untouched and every module unchanged EXCEPT that, when
the resolved target has a non-empty concatenated `modules` list, the
handler's in-place sort may reorder that nested list (same elements,
descending-size order); when no target resolves, the report is returned
exactly as it was. -/
theorem c8_no_mutation_except_nested_sort (sd : WebpackStatsNative)
    (ref : String)
    (hd : sd.modules.Pairwise (fun a b => a.oid ≠ b.oid)) :
    (resolveModuleDependentsFull sd ref).2.assets = sd.assets
  ∧ (resolveModuleDependentsFull sd ref).2.chunks = sd.chunks
  ∧ List.Forall₂ sameUpToNestedOrder sd.modules
      (resolveModuleDependentsFull sd ref).2.modules
  ∧ (findTarget sd ref = none →
      (resolveModuleDependentsFull sd ref).2 = sd) := by
  unfold resolveModuleDependentsFull
  cases hft : findTarget sd ref with
  | none =>
    exact ⟨rfl, rfl, List.forall₂_same.mpr
      (fun x _ => sameUpToNestedOrder_refl x), fun _ => rfl⟩
  | some target =>
    cases htm : target.modules with
    | none =>
      simp only [htm]
      exact ⟨by trivial, by trivial, List.forall₂_same.mpr
        (fun x _ => sameUpToNestedOrder_refl x), fun hc => by cases hc⟩
    | some l =>
      cases l with
      | nil =>
        simp only [htm]
        exact ⟨by trivial, by trivial, List.forall₂_same.mpr
          (fun x _ => sameUpToNestedOrder_refl x), fun hc => by cases hc⟩
      | cons m0 ms =>
        simp only [htm]
        refine ⟨by trivial, by trivial, ?_, fun hc => by cases hc⟩
        exact forall₂_alias_sort target (m0 :: ms) htm
          (sortModules (m0 :: ms)) (List.perm_insertionSort _ _)
          sd.modules hd (findTarget_mem hft)

/-- Witness for C8 on the empty report: nothing is mutated. -/
theorem c8_no_mutation_witness :
    (resolveModuleDependentsFull ⟨[], [], []⟩ "x").2.assets
      = (⟨[], [], []⟩ : WebpackStatsNative).assets
  ∧ (resolveModuleDependentsFull ⟨[], [], []⟩ "x").2.chunks
      = (⟨[], [], []⟩ : WebpackStatsNative).chunks
  ∧ List.Forall₂ sameUpToNestedOrder
      (⟨[], [], []⟩ : WebpackStatsNative).modules
      (resolveModuleDependentsFull ⟨[], [], []⟩ "x").2.modules
  ∧ (findTarget ⟨[], [], []⟩ "x" = none →
      (resolveModuleDependentsFull ⟨[], [], []⟩ "x").2 = ⟨[], [], []⟩) :=
  c8_no_mutation_except_nested_sort ⟨[], [], []⟩ "x" List.Pairwise.nil

/-- The modules of the C8 counterexample: a target whose nested
concatenated modules are stored size-ascending (1 then 2). -/
def c8ma : WebpackModuleNative :=
  .mk 10 none "" "a" (some 1) [] none none none

def c8mb : WebpackModuleNative :=
  .mk 11 none "" "b" (some 2) [] none none none

def c8target : WebpackModuleNative :=
  .mk 1 (some (.str "t")) "idT" "t" (some 0) [] none none
    (some [c8ma, c8mb])

def c8sd : WebpackStatsNative := ⟨[], [c8target], []⟩

/-- C8 counterexample: after one call to the dependents endpoint the
report is NOT unchanged — the target's nested `modules` array has been
reordered in place by the aliased sort (from [size 1, size 2] to
[size 2, size 1]). -/
theorem c8_counterexample :
    c8target.modules = some [c8ma, c8mb]
  ∧ (resolveModuleDependentsFull c8sd "t").2.modules
      = [c8target.setModules [c8mb, c8ma]]
  ∧ (c8target.setModules [c8mb, c8ma]).modules = some [c8mb, c8ma]
  ∧ (resolveModuleDependentsFull c8sd "t").2 ≠ c8sd := by
  refine ⟨rfl, rfl, rfl, fun hEq => ?_⟩
  have h1 : (resolveModuleDependentsFull c8sd "t").2.modules
      = c8sd.modules := by rw [hEq]
  rw [show (resolveModuleDependentsFull c8sd "t").2.modules
      = [c8target.setModules [c8mb, c8ma]] from rfl,
    show c8sd.modules = [c8target] from rfl] at h1
  injection h1 with h2 _
  have h3 : (c8target.setModules [c8mb, c8ma]).modules
      = c8target.modules := by rw [h2]
  rw [show (c8target.setModules [c8mb, c8ma]).modules
      = some [c8mb, c8ma] from rfl,
    show c8target.modules = some [c8ma, c8mb] from rfl] at h3
  injection h3 with h4
  injection h4 with h5 _
  have h7 : c8mb.size = c8ma.size := by rw [h5]
  rw [show c8mb.size = some 2 from rfl,
    show c8ma.size = some 1 from rfl] at h7
  injection h7 with h8
  exact absurd h8 (by decide)
